import Mathlib

/-!
Shallow embedding of `tensorflow/core/example/feature_util.h`: typed
accessors over `Feature` protos (a oneof of an int64 list, a float list
and a bytes list), `Features` maps, `Example` records and
`SequenceExample` feature lists.

The header in the repository declares the per-kind template
specializations (`GetFeatureValues<K>(const Feature&)`,
`GetFeatureValues<K>(Feature*)`, `ClearFeatureValues<K>`,
`HasFeature<K>`, `GetFeatureList`) and defines the generic bulk
operations inline.  The specialization bodies and the `Feature` proto
itself live outside the embedded sources, so those parts are modelled
from the specification's description of the Typed Value View, the Bulk
Copier, the Field Map Accessor and the Field Group Accessor.
-/

namespace FeatureUtil

/-- Storage kinds of a `Feature` oneof: `Int64List`, `FloatList`, `BytesList`. -/
inductive FeatureKind where
  | int64 : FeatureKind
  | float : FeatureKind
  | bytes : FeatureKind
deriving DecidableEq, Repr, Fintype

/-- Element carrier of each storage kind.  Values are only stored and
copied, never computed with, so `Int`, `Rat` and `String` are faithful
carriers for int64, float and byte-string elements. -/
def FeatureKind.Elem : FeatureKind → Type
  | .int64 => Int
  | .float => Rat
  | .bytes => String

instance : (k : FeatureKind) → DecidableEq k.Elem
  | .int64 => inferInstanceAs (DecidableEq Int)
  | .float => inferInstanceAs (DecidableEq Rat)
  | .bytes => inferInstanceAs (DecidableEq String)

/-- Modelled from the spec: a Field ("Feature", `feature.proto`, not under
the embedded sources) holds at most one of three repeated value lists with
an implicit discriminant (`kind_case`).  All three component lists are kept
explicit so frame conditions about non-active kinds can be stated. -/
structure Feature where
  kind : Option FeatureKind
  int64List : List Int
  floatList : List Rat
  bytesList : List String
deriving DecidableEq, Repr

/-- A freshly constructed `Feature`: unset oneof, all lists empty. -/
def Feature.empty : Feature := ⟨none, [], [], []⟩

/-- The repeated storage of kind `k` inside a `Feature` (the raw component,
before any discriminant check). -/
def Feature.list (f : Feature) : (k : FeatureKind) → List k.Elem
  | .int64 => f.int64List
  | .float => f.floatList
  | .bytes => f.bytesList

/-- Replace the kind-`k` component list, touching nothing else. -/
def Feature.setList (f : Feature) : (k : FeatureKind) → List k.Elem → Feature
  | .int64, l => { f with int64List := l }
  | .float, l => { f with floatList := l }
  | .bytes, l => { f with bytesList := l }

/-- Oneof invariant: every component list of a kind other than the
discriminant is empty (so at most one list is non-empty, and it is the
discriminant's). -/
def Feature.wf (f : Feature) : Prop :=
  ∀ k : FeatureKind, f.kind ≠ some k → f.list k = []

instance (f : Feature) : Decidable f.wf :=
  inferInstanceAs (Decidable (∀ k : FeatureKind, f.kind ≠ some k → f.list k = []))

/-- Error classes of the accessor layer: `LookupError` for a read-only
lookup of an absent key, `ForeignKindAccess` for a read-only typed view
under a kind other than the discriminant. -/
inductive AccessError where
  | lookupError : AccessError
  | foreignKindAccess : AccessError
deriving DecidableEq, Repr

/-- Modelled from the spec: the read-only Typed Value View
`GetFeatureValues<K>(const Feature&)` (specialization bodies are outside
the embedded sources).  On a matching discriminant it returns the typed
storage; on a foreign discriminant it is a ForeignKindAccess error; on an
unset oneof it views the default (empty) storage. -/
def GetFeatureValuesConst (k : FeatureKind) (f : Feature) :
    Except AccessError (List k.Elem) :=
  match f.kind with
  | some k' => if k' = k then .ok (f.list k) else .error .foreignKindAccess
  | none => .ok []

/-- Modelled from the spec: the discriminant switch performed by the
mutable Typed Value View `GetFeatureValues<K>(Feature*)`.  If the oneof is
unset or set to a different kind, the discriminant becomes `k` and the
payload is replaced by an empty instance of kind `k`'s storage (oneof
exclusivity); otherwise the feature is untouched. -/
def switchKind (k : FeatureKind) (f : Feature) : Feature :=
  if f.kind = some k then f else { Feature.empty with kind := some k }

/-- Modelled from the spec: `ClearFeatureValues<K>(Feature*)` empties only
the kind-`k` storage; it does not alter the discriminant and has no effect
on the other kinds' data. -/
def ClearFeatureValues (k : FeatureKind) (f : Feature) : Feature :=
  f.setList k []

/-- `AppendFeatureValues(container, Feature*)` (feature_util.h:348-362):
obtains the mutable typed view for the kind resolved from the element type
(switching the discriminant as a side effect), then adds every element in
order at the back of the typed storage. -/
def AppendFeatureValues (k : FeatureKind) (vals : List k.Elem) (f : Feature) :
    Feature :=
  (switchKind k f).setList k ((switchKind k f).list k ++ vals)

/-- `SetFeatureValues(container, Feature*)` (feature_util.h:457-464):
`ClearFeatureValues` for the resolved kind, then `AppendFeatureValues`. -/
def SetFeatureValues (k : FeatureKind) (vals : List k.Elem) (f : Feature) :
    Feature :=
  AppendFeatureValues k vals (ClearFeatureValues k f)

/-- Modelled from the spec: a Field Map ("Features"): a key-indexed mapping
with unique string keys whose values are `Feature`s, embedded as an
association list (insertion order is irrelevant to every claim). -/
structure Features where
  feature : List (String × Feature)
deriving DecidableEq, Repr

/-- Key lookup in the map (`feature().find`/`at` of the protobuf `Map`). -/
def Features.find (fs : Features) (key : String) : Option Feature :=
  (fs.feature.find? (fun p => p.1 = key)).map Prod.snd

/-- Modelled from the spec: `(*mutable_feature())[key]` — get-or-create.
Returns the `Feature` under `key` (a default `Feature.empty` is inserted
first when the key is absent) together with the updated map. -/
def Features.getOrCreate (fs : Features) (key : String) : Feature × Features :=
  match fs.find key with
  | some f => (f, fs)
  | none => (Feature.empty, ⟨fs.feature ++ [(key, Feature.empty)]⟩)

/-- Store `f` under `key`: replace the existing entry, or append a new one. -/
def Features.store (fs : Features) (key : String) (f : Feature) : Features :=
  if (fs.find key).isSome then
    ⟨fs.feature.map (fun p => if p.1 = key then (key, f) else p)⟩
  else ⟨fs.feature ++ [(key, f)]⟩

/-- `Example` wraps exactly one `Features` map (`example.proto`). -/
structure Example where
  features : Features
deriving DecidableEq, Repr

/-- `GetFeatures(const ProtoType&)` for `Example` (single level of
delegation; on a bare `Features` it is the identity). -/
def GetFeatures (ex : Example) : Features := ex.features

/-- `GetFeature(key, const ProtoType&)` (feature_util.h:270-273): read-only
lookup, `std::out_of_range` (LookupError) when the key is absent. -/
def GetFeatureConst (key : String) (fs : Features) :
    Except AccessError Feature :=
  match fs.find key with
  | some f => .ok f
  | none => .error .lookupError

/-- `GetFeature(key, ProtoType*)` (feature_util.h:277-280): mutable lookup,
inserts an empty `Feature` when absent and returns a usable reference —
embedded as the referenced `Feature` plus the updated map. -/
def GetFeatureMut (key : String) (fs : Features) : Feature × Features :=
  fs.getOrCreate key

/-- Modelled from the spec: `HasFeature(key, features)` with no kind
argument (body outside the embedded sources): key membership only. -/
def HasFeature (key : String) (fs : Features) : Bool :=
  (fs.find key).isSome

/-- Modelled from the spec: `HasFeature<K>(key, features)` (body outside
the embedded sources): key membership and discriminant match; false when
the key exists but the feature holds a different kind. -/
def HasFeatureKind (k : FeatureKind) (key : String) (fs : Features) : Bool :=
  match fs.find key with
  | some f => f.kind = some k
  | none => false

/-- `GetFeatureValues<K>(key, const ProtoType&)` (feature_util.h:245-250):
read-only key lookup composed with the read-only typed view. -/
def GetFeatureValuesConstKey (k : FeatureKind) (key : String) (fs : Features) :
    Except AccessError (List k.Elem) :=
  match fs.find key with
  | some f => GetFeatureValuesConst k f
  | none => .error .lookupError

/-- `AppendFeatureValues(container, key, ProtoType*)`
(feature_util.h:386-405): mutable `GetFeature` then `AppendFeatureValues`
on the referenced feature; the mutation lands back in the map. -/
def AppendFeatureValuesKey (k : FeatureKind) (vals : List k.Elem)
    (key : String) (fs : Features) : Features :=
  (GetFeatureMut key fs).2.store key
    (AppendFeatureValues k vals (GetFeatureMut key fs).1)

/-- `SetFeatureValues(container, key, ProtoType*)` (feature_util.h:477-482):
mutable `GetFeature` then `SetFeatureValues` on the referenced feature. -/
def SetFeatureValuesKey (k : FeatureKind) (vals : List k.Elem)
    (key : String) (fs : Features) : Features :=
  (GetFeatureMut key fs).2.store key
    (SetFeatureValues k vals (GetFeatureMut key fs).1)

/-- Modelled from the spec: a Field Group ("FeatureList"): an ordered
sequence of `Feature` (the `RepeatedPtrField<Feature>` of a feature list;
order is significant). -/
structure FeatureList where
  feature : List Feature
deriving DecidableEq, Repr

/-- Modelled from the spec: `SequenceExample`: one "context" `Features`
map plus a key-indexed mapping from key to `FeatureList`. -/
structure SequenceExample where
  context : Features
  featureLists : List (String × FeatureList)
deriving DecidableEq, Repr

/-- Key lookup among the feature lists of a `SequenceExample`. -/
def SequenceExample.findList (se : SequenceExample) (key : String) :
    Option FeatureList :=
  (se.featureLists.find? (fun p => p.1 = key)).map Prod.snd

/-- Modelled from the spec: `HasFeatureList(key, sequence_example)`
(body outside the embedded sources): key membership only. -/
def HasFeatureList (key : String) (se : SequenceExample) : Bool :=
  (se.findList key).isSome

/-- Store a `FeatureList` under `key`, replacing or appending the entry. -/
def SequenceExample.storeList (se : SequenceExample) (key : String)
    (fl : FeatureList) : SequenceExample :=
  if (se.findList key).isSome then
    { se with featureLists :=
        se.featureLists.map (fun p => if p.1 = key then (key, fl) else p) }
  else { se with featureLists := se.featureLists ++ [(key, fl)] }

/-- Modelled from the spec: mutable `GetFeatureList(key, sequence_example)`
(feature_util.h:300-301, body outside the embedded sources): auto-creates
an empty `FeatureList` when absent and returns it with the updated record. -/
def GetFeatureListMut (key : String) (se : SequenceExample) :
    FeatureList × SequenceExample :=
  match se.findList key with
  | some fl => (fl, se)
  | none => (⟨[]⟩, se.storeList key ⟨[]⟩)

/-- Modelled from the spec: the idiom
`AppendFeatureValues(vals, GetFeatureList(key, &se)->Add())`: the mutable
group for `key` gains one new empty `Feature` element at its back
(`RepeatedPtrField::Add`), which is then populated by
`AppendFeatureValues`. -/
def AppendToNewGroupElement (k : FeatureKind) (vals : List k.Elem)
    (key : String) (se : SequenceExample) : SequenceExample :=
  (GetFeatureListMut key se).2.storeList key
    ⟨(GetFeatureListMut key se).1.feature ++
      [AppendFeatureValues k vals Feature.empty]⟩

/-- Caller-supplied C++ value types the trait resolver is instantiated at:
the integral types, the floating-point types, and the string-like types
named by `internal::is_string` (feature_util.h:188-203). -/
inductive ValueType where
  | boolT : ValueType
  | charT : ValueType
  | int8T : ValueType
  | uint8T : ValueType
  | int16T : ValueType
  | uint16T : ValueType
  | int32T : ValueType
  | uint32T : ValueType
  | int64T : ValueType
  | uint64T : ValueType
  | floatT : ValueType
  | doubleT : ValueType
  | longDoubleT : ValueType
  | stdString : ValueType
  | stringPiece : ValueType
  | tstringT : ValueType
  | charPtr : ValueType
  | constCharPtr : ValueType
deriving DecidableEq, Repr, Fintype

/-- `std::is_integral` on the embedded value types. -/
def ValueType.isIntegral : ValueType → Bool
  | .boolT | .charT | .int8T | .uint8T | .int16T | .uint16T
  | .int32T | .uint32T | .int64T | .uint64T => true
  | _ => false

/-- `std::is_floating_point` on the embedded value types. -/
def ValueType.isFloatingPoint : ValueType → Bool
  | .floatT | .doubleT | .longDoubleT => true
  | _ => false

/-- `internal::is_string` (feature_util.h:188-203): true for `char*` and
`const char*` (after decay), `std::string`, `StringPiece` and `tstring`. -/
def is_string : ValueType → Bool
  | .charPtr | .constCharPtr | .stdString | .stringPiece | .tstringT => true
  | _ => false

/-- Storage value types `internal::FeatureTrait` may resolve to:
`protobuf_int64`, `float`, `tstring` and `std::string`. -/
inductive StorageValueType where
  | protobufInt64 : StorageValueType
  | floatT : StorageValueType
  | tstringT : StorageValueType
  | stdStringT : StorageValueType
deriving DecidableEq, Repr

/-- The storage kind a storage value type selects inside a `Feature`. -/
def StorageValueType.kind : StorageValueType → FeatureKind
  | .protobufInt64 => .int64
  | .floatT => .float
  | .tstringT => .bytes
  | .stdStringT => .bytes

/-- `internal::FeatureTrait` (feature_util.h:175-209): `enable_if`-guarded
specializations mapping an integral value type to `protobuf_int64`, a
floating-point value type to `float`, and a string-like value type to
`std::string`; unresolved elsewhere (no primary definition). -/
def FeatureTrait (v : ValueType) : Option StorageValueType :=
  if v.isIntegral then some .protobufInt64
  else if v.isFloatingPoint then some .floatT
  else if is_string v then some .stdStringT
  else none

/-- Concrete repeated-storage container shapes. -/
inductive RepeatedFieldShape where
  | repeatedInt64Field : RepeatedFieldShape
  | repeatedFloatField : RepeatedFieldShape
  | repeatedPtrStringField : RepeatedFieldShape
deriving DecidableEq, Repr

/-- `internal::RepeatedFieldTrait` (feature_util.h:150-168): the concrete
repeated-field container for each storage value type; both `tstring` and
`std::string` use `RepeatedPtrField<std::string>`. -/
def RepeatedFieldTrait : StorageValueType → RepeatedFieldShape
  | .protobufInt64 => .repeatedInt64Field
  | .floatT => .repeatedFloatField
  | .tstringT => .repeatedPtrStringField
  | .stdStringT => .repeatedPtrStringField

/-! Helper lemmas about the component operations. -/

lemma list_setList_self (f : Feature) (k : FeatureKind) (l : List k.Elem) :
    (f.setList k l).list k = l := by
  cases k <;> rfl

lemma list_setList_other (f : Feature) {k j : FeatureKind} (l : List k.Elem)
    (h : j ≠ k) : (f.setList k l).list j = f.list j := by
  cases k <;> cases j <;> first | rfl | exact absurd rfl h

lemma kind_setList (f : Feature) (k : FeatureKind) (l : List k.Elem) :
    (f.setList k l).kind = f.kind := by
  cases k <;> rfl

lemma setList_setList (f : Feature) (k : FeatureKind) (l l' : List k.Elem) :
    (f.setList k l).setList k l' = f.setList k l' := by
  cases k <;> rfl

lemma fresh_list (k j : FeatureKind) :
    ({ Feature.empty with kind := some k } : Feature).list j = [] := by
  cases j <;> rfl

lemma kind_switchKind (k : FeatureKind) (f : Feature) :
    (switchKind k f).kind = some k := by
  unfold switchKind
  split
  · assumption
  · rfl

lemma switchKind_of_kind_eq {k : FeatureKind} {f : Feature}
    (h : f.kind = some k) : switchKind k f = f := by
  simp [switchKind, h]

lemma switchKind_of_kind_ne {k : FeatureKind} {f : Feature}
    (h : f.kind ≠ some k) :
    switchKind k f = { Feature.empty with kind := some k } := by
  simp [switchKind, h]

lemma switchKind_list_of_nil (k : FeatureKind) (f : Feature)
    (h : f.list k = []) : (switchKind k f).list k = [] := by
  unfold switchKind
  split
  · exact h
  · exact fresh_list k k

lemma kind_AppendFeatureValues (k : FeatureKind) (vals : List k.Elem)
    (f : Feature) : (AppendFeatureValues k vals f).kind = some k := by
  unfold AppendFeatureValues
  rw [kind_setList, kind_switchKind]

lemma kind_SetFeatureValues (k : FeatureKind) (vals : List k.Elem)
    (f : Feature) : (SetFeatureValues k vals f).kind = some k :=
  kind_AppendFeatureValues k vals _

lemma list_SetFeatureValues_self (k : FeatureKind) (vals : List k.Elem)
    (f : Feature) : (SetFeatureValues k vals f).list k = vals := by
  unfold SetFeatureValues AppendFeatureValues ClearFeatureValues
  rw [list_setList_self, switchKind_list_of_nil k _ (list_setList_self f k []),
    List.nil_append]

lemma getConst_of_kind (k : FeatureKind) (f : Feature)
    (h : f.kind = some k) : GetFeatureValuesConst k f = .ok (f.list k) := by
  unfold GetFeatureValuesConst
  rw [h]
  simp

/-! Helper lemmas about association-list maps. -/

lemma find?_append_absent {α : Type} (l : List (String × α)) (key : String)
    (a : α) (h : l.find? (fun p => p.1 = key) = none) :
    (l ++ [(key, a)]).find? (fun p => p.1 = key) = some (key, a) := by
  rw [List.find?_append, h]
  simp

lemma find?_map_replace {α : Type} (l : List (String × α)) (key : String)
    (a : α) (h : (l.find? (fun p => p.1 = key)).isSome) :
    (l.map (fun p => if p.1 = key then (key, a) else p)).find?
      (fun p => p.1 = key) = some (key, a) := by
  induction l with
  | nil => simp at h
  | cons x t ih =>
    by_cases hx : x.1 = key
    · simp [hx]
    · rw [List.find?_cons_of_neg _ (by simpa using hx)] at h
      simpa [hx] using ih h

lemma Features.find_store (fs : Features) (key : String) (f : Feature) :
    (fs.store key f).find key = some f := by
  unfold Features.store
  split
  · unfold Features.find at *
    rw [find?_map_replace]
    · rfl
    · rename_i h
      simpa using h
  · unfold Features.find at *
    rw [find?_append_absent]
    · rfl
    · rename_i h
      simp only [Option.isSome_map'] at h
      exact Option.not_isSome_iff_eq_none.mp h

lemma setList_list_self (f : Feature) (k : FeatureKind) :
    f.setList k (f.list k) = f := by
  cases k <;> rfl

lemma wf_switchKind (k : FeatureKind) (f : Feature) (h : f.wf) :
    (switchKind k f).wf := by
  unfold switchKind
  split
  · exact h
  · intro j _
    exact fresh_list k j

lemma wf_AppendFeatureValues (k : FeatureKind) (vals : List k.Elem)
    (f : Feature) (h : f.wf) : (AppendFeatureValues k vals f).wf := by
  intro j hj
  have hk : (AppendFeatureValues k vals f).kind = some k :=
    kind_AppendFeatureValues k vals f
  have hjk : j ≠ k := fun he => hj (he ▸ hk)
  unfold AppendFeatureValues
  rw [list_setList_other _ _ hjk]
  unfold switchKind
  split
  · rename_i hf
    refine h j ?_
    rw [hf]
    intro hc
    exact hjk (Option.some.inj hc).symm
  · exact fresh_list k j

lemma wf_ClearFeatureValues (k : FeatureKind) (f : Feature) (h : f.wf) :
    (ClearFeatureValues k f).wf := by
  intro j hj
  unfold ClearFeatureValues at *
  by_cases hjk : j = k
  · subst hjk
    exact list_setList_self f j []
  · rw [list_setList_other _ _ hjk]
    rw [kind_setList] at hj
    exact h j hj

lemma wf_SetFeatureValues (k : FeatureKind) (vals : List k.Elem)
    (f : Feature) (h : f.wf) : (SetFeatureValues k vals f).wf :=
  wf_AppendFeatureValues k vals _ (wf_ClearFeatureValues k f h)

lemma list_SetFeatureValues_other (k : FeatureKind) (vals : List k.Elem)
    (g : Feature) {j : FeatureKind} (hg : g.kind = some j) (hne : j ≠ k) :
    (SetFeatureValues k vals g).list j = [] := by
  unfold SetFeatureValues AppendFeatureValues ClearFeatureValues
  have hck : (g.setList k []).kind ≠ some k := by
    rw [kind_setList, hg]
    intro hc
    exact hne (Option.some.inj hc)
  rw [switchKind_of_kind_ne hck, list_setList_other _ _ hne]
  exact fresh_list k j

lemma SequenceExample.findList_storeList (se : SequenceExample) (key : String)
    (fl : FeatureList) : (se.storeList key fl).findList key = some fl := by
  unfold SequenceExample.storeList
  split
  · unfold SequenceExample.findList at *
    rw [find?_map_replace]
    · rfl
    · rename_i h
      simpa using h
  · unfold SequenceExample.findList at *
    rw [find?_append_absent]
    · rfl
    · rename_i h
      simp only [Option.isSome_map'] at h
      exact Option.not_isSome_iff_eq_none.mp h

/-! Claim theorems. -/

/-- C1: for every kind `k` and every sequence of `k`-compatible values,
`SetFeatureValues` on a `Feature` followed by a read of
`GetFeatureValues<k>` yields exactly that sequence, in order. -/
theorem set_then_get_round_trip (k : FeatureKind) (vals : List k.Elem)
    (f : Feature) :
    GetFeatureValuesConst k (SetFeatureValues k vals f) = .ok vals := by
  rw [getConst_of_kind k _ (kind_SetFeatureValues k vals f),
    list_SetFeatureValues_self]

/-- C2: every mutating operation preserves the oneof invariant on a
well-formed `Feature` (discriminant and populated list agree, no two lists
simultaneously non-empty); in particular after `SetFeatureValues` under
kind `kA` followed by `SetFeatureValues` under a different kind `kB`, the
old `kA` data is gone and the `kB` read yields exactly the new values. -/
theorem oneof_invariant_preserved (f : Feature) (kA kB : FeatureKind)
    (vsA : List kA.Elem) (vsB : List kB.Elem) (hwf : f.wf) (hne : kA ≠ kB) :
    (∀ (k : FeatureKind) (vals : List k.Elem),
        (switchKind k f).wf ∧ (AppendFeatureValues k vals f).wf ∧
          (ClearFeatureValues k f).wf ∧ (SetFeatureValues k vals f).wf) ∧
      (SetFeatureValues kB vsB (SetFeatureValues kA vsA f)).list kA = [] ∧
      GetFeatureValuesConst kB
          (SetFeatureValues kB vsB (SetFeatureValues kA vsA f)) = .ok vsB := by
  refine ⟨fun k vals => ⟨wf_switchKind k f hwf,
    wf_AppendFeatureValues k vals f hwf, wf_ClearFeatureValues k f hwf,
    wf_SetFeatureValues k vals f hwf⟩, ?_, ?_⟩
  · exact list_SetFeatureValues_other kB vsB _
      (kind_SetFeatureValues kA vsA f) hne
  · rw [getConst_of_kind kB _ (kind_SetFeatureValues kB vsB _),
      list_SetFeatureValues_self]

/-- Witness for C2 at the empty feature with kinds int64 and float. -/
theorem oneof_invariant_preserved_witness :
    (Feature.empty.wf ∧ FeatureKind.int64 ≠ FeatureKind.float) ∧
      ((∀ (k : FeatureKind) (vals : List k.Elem),
          (switchKind k Feature.empty).wf ∧
            (AppendFeatureValues k vals Feature.empty).wf ∧
            (ClearFeatureValues k Feature.empty).wf ∧
            (SetFeatureValues k vals Feature.empty).wf) ∧
        (SetFeatureValues .float [(2 : Rat)]
            (SetFeatureValues .int64 [(1 : Int)] Feature.empty)).list
            .int64 = [] ∧
        GetFeatureValuesConst .float
            (SetFeatureValues .float [(2 : Rat)]
              (SetFeatureValues .int64 [(1 : Int)] Feature.empty)) =
          .ok [(2 : Rat)]) :=
  ⟨⟨by decide, by decide⟩,
    oneof_invariant_preserved Feature.empty .int64 .float [(1 : Int)]
      [(2 : Rat)] (by decide) (by decide)⟩

/-- C3: const `GetFeature` with an absent key fails with a LookupError,
while mutable `GetFeature` inserts an empty `Feature` and returns a usable
reference, so `HasFeature` is true immediately afterward even though zero
values were appended. -/
theorem getFeature_const_fails_mut_creates (key : String) (fs : Features)
    (habs : fs.find key = none) :
    GetFeatureConst key fs = .error .lookupError ∧
      (GetFeatureMut key fs).1 = Feature.empty ∧
      HasFeature key (GetFeatureMut key fs).2 = true := by
  have h0 : fs.feature.find? (fun p => p.1 = key) = none := by
    have h1 := habs
    unfold Features.find at h1
    exact Option.map_eq_none'.mp h1
  unfold GetFeatureConst GetFeatureMut Features.getOrCreate
  rw [habs]
  refine ⟨rfl, rfl, ?_⟩
  unfold HasFeature Features.find
  rw [find?_append_absent fs.feature key Feature.empty h0]
  rfl

/-- Witness for C3 at the empty map and key "tag". -/
theorem getFeature_const_fails_mut_creates_witness :
    (Features.mk []).find "tag" = none ∧
      (GetFeatureConst "tag" (Features.mk []) = .error .lookupError ∧
        (GetFeatureMut "tag" (Features.mk [])).1 = Feature.empty ∧
        HasFeature "tag" (GetFeatureMut "tag" (Features.mk [])).2 = true) :=
  ⟨rfl, getFeature_const_fails_mut_creates "tag" (Features.mk []) rfl⟩

/-- C4: a read-only `GetFeatureValues<k>` on a feature whose discriminant
is a different kind `j` fails with a ForeignKindAccess error rather than
returning a value. -/
theorem const_read_foreign_kind (f : Feature) (k j : FeatureKind)
    (hk : f.kind = some j) (hne : j ≠ k) :
    GetFeatureValuesConst k f = .error .foreignKindAccess := by
  unfold GetFeatureValuesConst
  rw [hk]
  simp [hne]

/-- Witness for C4: a float read on an int64-discriminated feature. -/
theorem const_read_foreign_kind_witness :
    (⟨some .int64, [1], [], []⟩ : Feature).kind = some .int64 ∧
      FeatureKind.int64 ≠ FeatureKind.float ∧
      GetFeatureValuesConst .float (⟨some .int64, [1], [], []⟩ : Feature) =
        .error .foreignKindAccess :=
  ⟨rfl, by decide,
    const_read_foreign_kind ⟨some .int64, [1], [], []⟩ .float .int64 rfl
      (by decide)⟩

/-- C5: `ClearFeatureValues<k>` empties only the kind-`k` storage: the
discriminant is unchanged (in particular when it points to a different
kind) and the data of every other kind is untouched. -/
theorem clear_frames_other_kinds (f : Feature) (k : FeatureKind) :
    (ClearFeatureValues k f).list k = [] ∧
      (ClearFeatureValues k f).kind = f.kind ∧
      ∀ j : FeatureKind, j ≠ k →
        (ClearFeatureValues k f).list j = f.list j :=
  ⟨list_setList_self f k [], kind_setList f k [],
    fun _ hj => list_setList_other f [] hj⟩

/-- C6: two successive `AppendFeatureValues` of `A` then `B` leave the
feature's typed storage equal to one `AppendFeatureValues` of `A ++ B`. -/
theorem append_append_eq_append_concat (k : FeatureKind) (A B : List k.Elem)
    (f : Feature) :
    AppendFeatureValues k B (AppendFeatureValues k A f) =
      AppendFeatureValues k (A ++ B) f := by
  unfold AppendFeatureValues
  rw [switchKind_of_kind_eq (by rw [kind_setList, kind_switchKind]),
    list_setList_self, setList_setList, List.append_assoc]

/-- C7: `HasFeature<k>` is true exactly when the key is present and the
stored feature's discriminant is `k`; it is false when the key exists but
the feature holds a different kind; the kind-less `HasFeature` checks
membership only. -/
theorem hasFeature_kind_and_membership (k : FeatureKind) (key : String)
    (fs : Features) :
    (HasFeatureKind k key fs = true ↔
        ∃ f, fs.find key = some f ∧ f.kind = some k) ∧
      (∀ f, fs.find key = some f → f.kind ≠ some k →
        HasFeatureKind k key fs = false) ∧
      (HasFeature key fs = true ↔ ∃ f, fs.find key = some f) := by
  cases h : fs.find key with
  | none => simp [HasFeatureKind, HasFeature, h]
  | some f0 => simp [HasFeatureKind, HasFeature, h]

/-- C8: the type trait resolver maps exactly the integral value types to
storage kind Int64, exactly the floating-point value types to kind Float,
and exactly the string-like value types (owned string, borrowed string
view, C-style strings) to kind Bytes. -/
theorem featureTrait_kind_resolution :
    ∀ v : ValueType,
      (v.isIntegral = true ↔
          (FeatureTrait v).map StorageValueType.kind = some .int64) ∧
        (v.isFloatingPoint = true ↔
          (FeatureTrait v).map StorageValueType.kind = some .float) ∧
        (is_string v = true ↔
          (FeatureTrait v).map StorageValueType.kind = some .bytes) := by
  decide

/-- C9: appending a new populated `Feature` element to the group under a
key preserves call order (the new element goes to the back of the group);
concretely, adding `[4.0]` and then `[5.0, 3.0]` under "images" yields an
ordered two-element group with element 0 = `[4.0]`, element 1 =
`[5.0, 3.0]`. -/
theorem featureList_append_preserves_order :
    (∀ (se : SequenceExample) (key : String) (k : FeatureKind)
        (vals : List k.Elem),
        (AppendToNewGroupElement k vals key se).findList key =
          some ⟨((se.findList key).getD ⟨[]⟩).feature ++
            [AppendFeatureValues k vals Feature.empty]⟩) ∧
      (AppendToNewGroupElement .float ([5, 3] : List Rat) "images"
          (AppendToNewGroupElement .float ([4] : List Rat) "images"
            ⟨⟨[]⟩, []⟩)).findList "images" =
        some ⟨[⟨some .float, [], [4], []⟩,
          ⟨some .float, [], [5, 3], []⟩]⟩ := by
  constructor
  · intro se key k vals
    unfold AppendToNewGroupElement GetFeatureListMut
    cases h : se.findList key with
    | some fl => simp [h, SequenceExample.findList_storeList]
    | none => simp [h, SequenceExample.findList_storeList]
  · rfl

/-- C10: `AppendFeatureValues` with an empty source is not a no-op: on a
feature discriminated by a different kind it still switches the
discriminant to the resolved kind and discards the prior kind's data, and
the key-based overload still auto-creates the map entry. -/
theorem append_empty_switches_kind (f : Feature) (k j : FeatureKind)
    (key : String) (fs : Features) (hk : f.kind = some j) (hne : j ≠ k)
    (habs : fs.find key = none) :
    AppendFeatureValues k [] f = { Feature.empty with kind := some k } ∧
      (AppendFeatureValues k [] f).list j = [] ∧
      HasFeature key (AppendFeatureValuesKey k [] key fs) = true := by
  have hsw : switchKind k f = { Feature.empty with kind := some k } := by
    refine switchKind_of_kind_ne ?_
    rw [hk]
    intro hc
    exact hne (Option.some.inj hc)
  have h1 : AppendFeatureValues k [] f =
      { Feature.empty with kind := some k } := by
    unfold AppendFeatureValues
    rw [hsw, List.append_nil, setList_list_self]
  refine ⟨h1, by rw [h1]; exact fresh_list k j, ?_⟩
  unfold AppendFeatureValuesKey GetFeatureMut Features.getOrCreate
  rw [habs]
  unfold HasFeature
  rw [Features.find_store]
  rfl

/-- Witness for C10: float append of nothing to an int64 feature, and a
key-based empty append into an empty map. -/
theorem append_empty_switches_kind_witness :
    ((⟨some .int64, [7], [], []⟩ : Feature).kind = some .int64 ∧
        FeatureKind.int64 ≠ FeatureKind.float ∧
        (Features.mk []).find "tag" = none) ∧
      (AppendFeatureValues .float [] (⟨some .int64, [7], [], []⟩ : Feature) =
          { Feature.empty with kind := some .float } ∧
        (AppendFeatureValues .float []
            (⟨some .int64, [7], [], []⟩ : Feature)).list .int64 = [] ∧
        HasFeature "tag"
            (AppendFeatureValuesKey .float [] "tag" (Features.mk [])) =
          true) :=
  ⟨⟨rfl, by decide, rfl⟩,
    append_empty_switches_kind ⟨some .int64, [7], [], []⟩ .float .int64
      "tag" (Features.mk []) rfl (by decide) rfl⟩

end FeatureUtil
